import Mathlib

/-!
# Verification of the apo terminal-UI engine

A shallow embedding of the `apo` Azure-DevOps terminal dashboard (Go), covering
the terminal key decoder, the style primitives, the tab bar, the scrollable and
filterable list widget, the data-refresh cycle and the application controller
(`internal/ui/terminal/terminal.go`, `internal/ui/components/components.go`,
`internal/ui/views`, `internal/ui/app.go`).  Go strings are modelled as Lean
`String` (byte-level slicing coincides with character-level slicing on the
ASCII inputs the proofs use; the raw-byte primitives of the terminal layer are
modelled on `List Nat`).  Go `int` is modelled as `Int` or, where the source
keeps the value non-negative by construction, as `Nat`.
-/

namespace Apo

/-! ## Terminal driver: key decoding (`terminal.ReadKey`) -/

/-- `terminal.KeyType`: the discriminant of a decoded key event. -/
inductive KeyType where
  | rune
  | enter
  | escape
  | backspace
  | tab
  | up
  | down
  | left
  | right
  | ctrlC
deriving DecidableEq, Repr

/-- `terminal.Key`: a decoded key event.  `rune` carries the code point (a raw
byte for single-byte input), meaningful only when `type = .rune`. -/
structure Key where
  type : KeyType
  rune : Nat := 0
deriving DecidableEq, Repr

/-- The pure decoding core of `terminal.ReadKey`: the argument is the list of
the `n` bytes obtained from the single `os.Stdin.Read` into a 3-byte buffer
(so its length is between 0 and 3).  Mirrors the Go control flow: a 1-byte
read is mapped through the special-byte switch; a read of 3 bytes starting
with `27 '['` is checked against the arrow letters; everything else falls
through to "first byte as printable rune".  (For the impossible `n = 0` case
the Go code would read `buf[0] = 0` from the zeroed buffer.) -/
def decodeKey : List Nat → Key
  | [b] =>
    if b = 3 then ⟨.ctrlC, 0⟩
    else if b = 9 then ⟨.tab, 0⟩
    else if b = 13 then ⟨.enter, 0⟩
    else if b = 27 then ⟨.escape, 0⟩
    else if b = 127 then ⟨.backspace, 0⟩
    else ⟨.rune, b⟩
  | b0 :: b1 :: b2 :: _ =>
    if b0 = 27 ∧ b1 = 91 then
      if b2 = 65 then ⟨.up, 0⟩
      else if b2 = 66 then ⟨.down, 0⟩
      else if b2 = 67 then ⟨.right, 0⟩
      else if b2 = 68 then ⟨.left, 0⟩
      else ⟨.rune, b0⟩
    else ⟨.rune, b0⟩
  | b0 :: _ => ⟨.rune, b0⟩
  | [] => ⟨.rune, 0⟩

/-! ## Style primitives (`terminal.Truncate`) -/

/-- `terminal.Truncate`: Go operates on the byte representation of the string
(`len`, slicing), so the model takes the byte sequence as `List Nat`; the
ellipsis `"..."` is the three bytes `46 46 46`. -/
def truncate (s : List Nat) (max : Nat) : List Nat :=
  if s.length ≤ max then s
  else if max ≤ 3 then s.take max
  else s.take (max - 3) ++ [46, 46, 46]

/-! ## Tab bar (`components.TabBar`) -/

/-- `components.Tab`. -/
structure Tab where
  id : String
  name : String
  key : String
  icon : String
deriving DecidableEq, Repr

/-- `components.TabBar` (the terminal handle is render-only and omitted).
`active` is Go `int`; every reachable value is non-negative (initially `0`,
guarded in `SetActive`, a loop index in `SetActiveByID`, a remainder in
`Next`), so it is carried as `Nat`. -/
structure TabBar where
  tabs : List Tab
  active : Nat
deriving DecidableEq, Repr

/-- `components.NewTabBar`. -/
def newTabBar (tabs : List Tab) : TabBar := ⟨tabs, 0⟩

/-- `TabBar.SetActive`: no-op unless `0 ≤ index < len(tabs)`. -/
def TabBar.setActive (t : TabBar) (index : Int) : TabBar :=
  if 0 ≤ index ∧ index < (t.tabs.length : Int) then { t with active := index.toNat } else t

/-- First index of a tab with the given ID (the search loop of
`TabBar.SetActiveByID`). -/
def firstTabIdx (tabs : List Tab) (id : String) : Option Nat :=
  match tabs with
  | [] => none
  | tb :: rest => if tb.id = id then some 0 else (firstTabIdx rest id).map (· + 1)

/-- `TabBar.SetActiveByID`: selects the first tab with the given ID, no-op on
an unknown ID. -/
def TabBar.setActiveByID (t : TabBar) (id : String) : TabBar :=
  match firstTabIdx t.tabs id with
  | some i => { t with active := i }
  | none => t

/-- `TabBar.Next`: `active = (active + 1) % len(tabs)`.  (On an empty bar the
Go code would panic with a division by zero; the Lean total function is only
meaningful for a non-empty bar, which all theorems assume.) -/
def TabBar.next (t : TabBar) : TabBar :=
  { t with active := (t.active + 1) % t.tabs.length }

/-- `TabBar.ActiveTab`: the active tab, or `none` when `active` is out of
range (for `Nat` the lower Go guard `active >= 0` is automatic). -/
def TabBar.activeTab (t : TabBar) : Option Tab :=
  t.tabs.get? t.active

/-- `Next` iterated `n` times. -/
def TabBar.nextN (t : TabBar) : Nat → TabBar
  | 0 => t
  | k + 1 => t.next.nextN k

/-- The three mutating tab-bar operations. -/
inductive TabOp where
  | setActive (index : Int)
  | setActiveByID (id : String)
  | next
deriving Repr

/-- Apply one tab-bar operation. -/
def TabBar.applyOp (t : TabBar) : TabOp → TabBar
  | .setActive i => t.setActive i
  | .setActiveByID id => t.setActiveByID id
  | .next => t.next

/-- Apply a sequence of tab-bar operations. -/
def TabBar.applyOps (t : TabBar) (ops : List TabOp) : TabBar :=
  ops.foldl TabBar.applyOp t

/-! ## Scrollable / filterable list (`components.List`) -/

/-- `components.ListItem` (the opaque `Data interface{}` payload is not
modelled; the views that need payloads keep their own typed slices, as in the
source). -/
structure ListItem where
  id : String := ""
  icon : String := ""
  label : String := ""
  sublabel : String := ""
deriving DecidableEq, Repr

/-- Character list of a string lower-cased character by character, modelling
`strings.ToLower` (identical on ASCII input). -/
def lowerChars (s : String) : List Char :=
  s.data.map Char.toLower

/-- `strings.Contains`: does `sub` occur as a contiguous substring of `s`?
(The empty needle is contained in every string.) -/
def containsSub (s sub : List Char) : Bool :=
  match s with
  | [] => sub.isEmpty
  | c :: rest => sub.isPrefixOf (c :: rest) || containsSub rest sub

/-- The per-item test of `List.applyFilter`: the lower-cased label contains
the lower-cased query. -/
def labelMatches (item : ListItem) (query : String) : Bool :=
  containsSub (lowerChars item.label) (lowerChars query)

/-- The index subsequence built by the loop in `List.applyFilter`: indices of
the items whose label matches the query, in ascending order. -/
def matchingIndices (items : List ListItem) (query : String) : List Nat :=
  (List.range items.length).filter fun i => labelMatches (items.getD i {}) query

/-- `components.List` (terminal handle omitted).  `selected`, `scroll` and
`height` are Go `int`, modelled as `Int`; `height` is assigned on each
`Render` from the given viewport height. -/
structure ListState where
  title : String := ""
  items : List ListItem := []
  filtered : List Nat := []
  selected : Int := 0
  scroll : Int := 0
  height : Int := 0
  filterMode : Bool := false
  filterQuery : String := ""
deriving DecidableEq, Repr

/-- `components.NewList`. -/
def newList (title : String) : ListState := { title := title }

/-- `List.activeIndices`: the filtered subsequence when it is non-empty,
otherwise the identity indices over the full item sequence.  (A Go `nil`
slice and an empty non-nil slice both have length 0 and are both modelled as
`[]`.) -/
def ListState.activeIndices (l : ListState) : List Nat :=
  if 0 < l.filtered.length then l.filtered else List.range l.items.length

/-- `List.adjustScroll`: clamp the scroll offset so the selection stays in the
window `[scroll, scroll+height)`; no-op when no height has been set. -/
def ListState.adjustScroll (l : ListState) : ListState :=
  if l.height ≤ 0 then l
  else
    let s1 := if l.selected < l.scroll then l.selected else l.scroll
    let s2 := if l.selected ≥ s1 + l.height then l.selected - l.height + 1 else s1
    { l with scroll := s2 }

/-- `List.MoveUp`. -/
def ListState.moveUp (l : ListState) : ListState :=
  if 0 < l.selected then ListState.adjustScroll { l with selected := l.selected - 1 } else l

/-- `List.MoveDown`. -/
def ListState.moveDown (l : ListState) : ListState :=
  if l.selected < (l.activeIndices.length : Int) - 1 then
    ListState.adjustScroll { l with selected := l.selected + 1 }
  else l

/-- `List.MoveToTop`. -/
def ListState.moveToTop (l : ListState) : ListState :=
  { l with selected := 0, scroll := 0 }

/-- `List.MoveToBottom`. -/
def ListState.moveToBottom (l : ListState) : ListState :=
  if 0 < l.activeIndices.length then
    ListState.adjustScroll { l with selected := (l.activeIndices.length : Int) - 1 }
  else l

/-- `List.applyFilter`: an empty query clears the derived subsequence (and
leaves selection and scroll untouched); a non-empty query rebuilds it and
resets selection and scroll to the top. -/
def ListState.applyFilter (l : ListState) : ListState :=
  if l.filterQuery = "" then { l with filtered := [] }
  else { l with filtered := matchingIndices l.items l.filterQuery, selected := 0, scroll := 0 }

/-- `List.SetFilter`. -/
def ListState.setFilter (l : ListState) (query : String) : ListState :=
  ListState.applyFilter { l with filterQuery := query }

/-- `List.ClearFilter`. -/
def ListState.clearFilter (l : ListState) : ListState :=
  { l with filterQuery := "", filtered := [], selected := 0, scroll := 0 }

/-- `List.ToggleFilterMode`: leaving filter mode clears the filter. -/
def ListState.toggleFilterMode (l : ListState) : ListState :=
  let l2 := { l with filterMode := !l.filterMode }
  if !l2.filterMode then l2.clearFilter else l2

/-- `List.SetItems`. -/
def ListState.setItems (l : ListState) (items : List ListItem) : ListState :=
  ListState.clearFilter { l with items := items }

/-- A freshly populated list with a fixed viewport height, as it stands after
`NewList` + `SetItems` once `Render` has assigned the height. -/
def listWithHeight (items : List ListItem) (height : Int) : ListState :=
  { ListState.setItems (newList "") items with height := height }

/-- The four selection-movement operations of the list widget. -/
inductive MoveOp where
  | up
  | down
  | top
  | bottom
deriving DecidableEq, Repr

/-- Apply one movement operation. -/
def ListState.applyMove (l : ListState) : MoveOp → ListState
  | .up => l.moveUp
  | .down => l.moveDown
  | .top => l.moveToTop
  | .bottom => l.moveToBottom

/-- Apply a sequence of movement operations. -/
def ListState.applyMoves (l : ListState) (ops : List MoveOp) : ListState :=
  ops.foldl ListState.applyMove l

/-! ## Domain entities (`internal/domain`), restricted to the fields and
methods the UI engine reads.  `time.Time` values are modelled as `Nat` ticks;
the zero value of `time.Time` (never set) is `Option.none` where the code
distinguishes it. -/

/-- `strings.TrimPrefix`. -/
def trimPrefixStr (s pre : String) : String :=
  if pre.isPrefixOf s then s.drop pre.length else s

/-- `domain.WorkItem`: the dynamic `Fields map[string]interface{}` is modelled
as an association list from field name to the string that `GetField` would
extract (a plain string value, or the `displayName` of an identity value). -/
structure WorkItem where
  id : Int := 0
  rev : Int := 0
  fields : List (String × String) := []
  url : String := ""
deriving DecidableEq, Repr

/-- `WorkItem.GetField`: first binding wins, missing fields give `""`. -/
def WorkItem.getField (w : WorkItem) (name : String) : String :=
  match w.fields.find? (fun p => p.1 == name) with
  | some p => p.2
  | none => ""

/-- `WorkItem.Title`. -/
def WorkItem.title (w : WorkItem) : String := w.getField "System.Title"

/-- `WorkItem.State`. -/
def WorkItem.state (w : WorkItem) : String := w.getField "System.State"

/-- `WorkItem.Type`. -/
def WorkItem.type (w : WorkItem) : String := w.getField "System.WorkItemType"

/-- `domain.BuildDefinition`. -/
structure BuildDefinition where
  id : Int := 0
  name : String := ""
  path : String := ""
  url : String := ""
deriving DecidableEq, Repr

/-- `domain.Build` (queue/start/finish times as ticks). -/
structure Build where
  id : Int := 0
  buildNumber : String := ""
  status : String := ""
  result : String := ""
  queueTime : Nat := 0
  startTime : Nat := 0
  finishTime : Nat := 0
  definition : BuildDefinition := {}
  sourceBranch : String := ""
  url : String := ""
deriving DecidableEq, Repr

/-- `domain.Pipeline`. -/
structure Pipeline where
  id : Int := 0
  name : String := ""
  folder : String := ""
  url : String := ""
deriving DecidableEq, Repr

/-- `Pipeline.FullPath`. -/
def Pipeline.fullPath (p : Pipeline) : String :=
  if p.folder = "" ∨ p.folder = "\\" ∨ p.folder = "/" then p.name
  else p.folder ++ "/" ++ p.name

/-- `domain.Identity` (URL fields omitted). -/
structure Identity where
  id : String := ""
  displayName : String := ""
  uniqueName : String := ""
deriving DecidableEq, Repr

/-- `domain.Repository` (size and project omitted). -/
structure Repository where
  id : String := ""
  name : String := ""
  url : String := ""
  defaultBranch : String := ""
deriving DecidableEq, Repr

/-- `Repository.DefaultBranchName`. -/
def Repository.defaultBranchName (r : Repository) : String :=
  trimPrefixStr r.defaultBranch "refs/heads/"

/-- `domain.RepoRef`. -/
structure RepoRef where
  id : String := ""
  name : String := ""
deriving DecidableEq, Repr

/-- `domain.Reviewer`. -/
structure Reviewer where
  id : String := ""
  displayName : String := ""
  uniqueName : String := ""
  vote : Int := 0
deriving DecidableEq, Repr

/-- `domain.PullRequest`. -/
structure PullRequest where
  pullRequestID : Int := 0
  title : String := ""
  description : String := ""
  status : String := ""
  createdBy : Identity := {}
  creationDate : Nat := 0
  sourceRefName : String := ""
  targetRefName : String := ""
  mergeStatus : String := ""
  isDraft : Bool := false
  url : String := ""
  repository : RepoRef := {}
  reviewers : List Reviewer := []
deriving DecidableEq, Repr

/-- `PullRequest.SourceBranch`. -/
def PullRequest.sourceBranch (pr : PullRequest) : String :=
  trimPrefixStr pr.sourceRefName "refs/heads/"

/-- `PullRequest.TargetBranch`. -/
def PullRequest.targetBranch (pr : PullRequest) : String :=
  trimPrefixStr pr.targetRefName "refs/heads/"

/-- `agent.GetWorkItemIcon`. -/
def getWorkItemIcon (itemType : String) : String :=
  let t := String.mk (lowerChars itemType)
  if t = "bug" then "🐛"
  else if t = "user story" ∨ t = "story" then "📖"
  else if t = "task" then "✅"
  else if t = "epic" then "🏔️"
  else if t = "feature" then "⭐"
  else "📋"

/-- `agent.GetBuildIcon`. -/
def getBuildIcon (result : String) : String :=
  let r := String.mk (lowerChars result)
  if r = "succeeded" then "✅"
  else if r = "failed" then "❌"
  else if r = "canceled" then "⏹️"
  else "🔄"

/-! ## View identities, lifecycle events, and the application controller
(`internal/ui/views/view.go`, `internal/ui/app.go`).  The controller state
gathers the fields of `ui.App` together with the widget state owned by each
view (the source spreads these over the `App` struct and the eight view
structs; the terminal handle, config and HTTP client are I/O-only and
omitted).  The agent (`agent.Agent.Ask` plus `agent.FormatResult`) performs
network I/O, so the model receives it as an injected function, exactly as the
Go views receive the `*agent.Agent` dependency. -/

/-- `views.ViewID`. -/
inductive ViewID where
  | dashboard
  | boards
  | pipelines
  | repos
  | pullrequests
  | copilot
  | workItemDetail
  | prDetail
deriving DecidableEq, Repr

/-- Is this one of the two read-only detail views? -/
def ViewID.isDetail (v : ViewID) : Bool :=
  v == .workItemDetail || v == .prDetail

/-- Observable lifecycle events of the controller: a view's `OnExit` hook, a
view's `OnEnter` hook, the drawing of a frame whose current view is `v`, and
the launch of a background refresh task. -/
inductive Event where
  | exit (v : ViewID)
  | enter (v : ViewID)
  | render (v : ViewID)
  | refresh
deriving DecidableEq, Repr

/-- `agent.Result`: `dataLines` stands for `FormatResult(result.Data)` split
at newlines (`[]` when `Data` is `nil`). -/
structure AgentResult where
  success : Bool := true
  message : String := ""
  suggestions : List String := []
  dataLines : List String := []
deriving DecidableEq, Repr

/-- `views.CopilotMessage` (the wall-clock timestamp is display-only and
omitted). -/
structure CopilotMessage where
  isUser : Bool := false
  content : String := ""
deriving DecidableEq, Repr

/-- The six tabs created in `ui.NewApp`. -/
def appTabs : List Tab :=
  [⟨"dashboard", "Dashboard", "1", "🏠"⟩,
   ⟨"boards", "Boards", "2", "📋"⟩,
   ⟨"pipelines", "Pipelines", "3", "🔧"⟩,
   ⟨"repos", "Repos", "4", "📁"⟩,
   ⟨"prs", "PRs", "5", "🔀"⟩,
   ⟨"copilot", "Copilot", "/", "🤖"⟩]

/-- The state of `ui.App` and its views.  The default values are the state
right after `NewApp` + the start of `Run` (so `running = true` and the
initial "Loading..." status message). -/
structure AppState where
  running : Bool := true
  currentView : ViewID := .dashboard
  previousView : ViewID := .dashboard
  tabBar : TabBar := newTabBar appTabs
  statusMessage : String := "Loading..."
  lastRefresh : Option Nat := none
  workItems : List WorkItem := []
  builds : List Build := []
  pipelineList : List Pipeline := []
  repoList : List Repository := []
  prList : List PullRequest := []
  loading : Bool := false
  boardsList : ListState := newList "📋 Work Items"
  boardsWorkItems : List WorkItem := []
  pipelinesList : ListState := newList "🔧 Pipelines"
  reposList : ListState := newList "📁 Repositories"
  prsList : ListState := newList "🔀 Pull Requests"
  prsPRs : List PullRequest := []
  copilotInput : String := ""
  copilotInputActive : Bool := false
  copilotHistory : List CopilotMessage := []
  dashboardWorkItems : List WorkItem := []
  dashboardBuilds : List Build := []
  dashboardPRs : List PullRequest := []
  workItemDetailItem : Option WorkItem := none
  prDetailPR : Option PullRequest := none
  cursorVisible : Bool := false
deriving DecidableEq, Repr

/-- `App.isDetailView`. -/
def AppState.isDetailView (a : AppState) : Bool :=
  a.currentView.isDetail

/-- `App.setStatus` (the status bar's message). -/
def setStatus (a : AppState) (msg : String) : AppState :=
  { a with statusMessage := msg }

/-- The `OnExit` hook of the view being left: only `CopilotView.OnExit` is
non-trivial (deactivate the input, hide the cursor). -/
def viewOnExit (a : AppState) : AppState :=
  match a.currentView with
  | .copilot => { a with copilotInputActive := false, cursorVisible := false }
  | _ => a

/-- The `OnEnter` hook of the freshly entered view: only `CopilotView.OnEnter`
is non-trivial (activate the input, show the cursor). -/
def viewOnEnter (a : AppState) : AppState :=
  match a.currentView with
  | .copilot => { a with copilotInputActive := true, cursorVisible := true }
  | _ => a

/-- The tab ID highlighted for each view in `App.switchToView` (detail views
leave the tab bar untouched). -/
def tabIdForView : ViewID → Option String
  | .dashboard => some "dashboard"
  | .boards => some "boards"
  | .pipelines => some "pipelines"
  | .repos => some "repos"
  | .pullrequests => some "prs"
  | .copilot => some "copilot"
  | _ => none

/-- `App.switchToView`: no-op when already current; otherwise run the old
view's exit hook, swap current/previous, run the new view's enter hook, and
re-highlight the tab bar.  The returned event list records the hook
invocations in execution order. -/
def switchToView (a : AppState) (id : ViewID) : AppState × List Event :=
  if a.currentView = id then (a, [])
  else
    let a1 := viewOnExit a
    let a2 := { a1 with previousView := a1.currentView, currentView := id }
    let a3 := viewOnEnter a2
    let a4 := match tabIdForView id with
      | some tid => { a3 with tabBar := a3.tabBar.setActiveByID tid }
      | none => a3
    (a4, [.exit a.currentView, .enter id])

/-- `App.switchToTabView`: follow the tab bar's active tab. -/
def switchToTabView (a : AppState) : AppState × List Event :=
  match a.tabBar.activeTab with
  | none => (a, [])
  | some tb =>
    if tb.id = "dashboard" then switchToView a .dashboard
    else if tb.id = "boards" then switchToView a .boards
    else if tb.id = "pipelines" then switchToView a .pipelines
    else if tb.id = "repos" then switchToView a .repos
    else if tb.id = "prs" then switchToView a .pullrequests
    else if tb.id = "copilot" then switchToView a .copilot
    else (a, [])

/-- `App.showWorkItemDetail` (the `boards.OnSelectItem` callback wired in
`NewApp`): store the item and switch to the detail view directly, without
invoking any lifecycle hook. -/
def showWorkItemDetail (a : AppState) (item : WorkItem) : AppState :=
  { a with workItemDetailItem := some item,
           previousView := a.currentView, currentView := .workItemDetail }

/-- `App.showPRDetail` (the `prs.OnSelectItem` callback wired in `NewApp`). -/
def showPRDetail (a : AppState) (pr : PullRequest) : AppState :=
  { a with prDetailPR := some pr,
           previousView := a.currentView, currentView := .prDetail }

/-- `BoardsView.SelectedWorkItem`: the raw list selection index into the
view's own work-item slice. -/
def boardsSelectedWorkItem (a : AppState) : Option WorkItem :=
  if 0 ≤ a.boardsList.selected ∧ a.boardsList.selected < (a.boardsWorkItems.length : Int) then
    a.boardsWorkItems.get? a.boardsList.selected.toNat
  else none

/-- `PullRequestsView.SelectedPR`. -/
def prsSelectedPR (a : AppState) : Option PullRequest :=
  if 0 ≤ a.prsList.selected ∧ a.prsList.selected < (a.prsPRs.length : Int) then
    a.prsPRs.get? a.prsList.selected.toNat
  else none

/-- The filter-mode branch shared by the four list views' `HandleKey`: Enter
and Escape leave filter mode, Backspace removes the last query character,
any rune extends the query; every one of those is consumed. -/
def listFilterModeKey (l : ListState) (k : Key) : ListState × Bool :=
  match k.type with
  | .enter => (l.toggleFilterMode, true)
  | .escape => (l.toggleFilterMode, true)
  | .backspace =>
    (if 0 < l.filterQuery.length then l.setFilter (l.filterQuery.dropRight 1) else l, true)
  | .rune => (l.setFilter (l.filterQuery ++ String.mk [Char.ofNat k.rune]), true)
  | _ => (l, false)

/-- The navigation branch shared by the four list views' `HandleKey`:
arrows, `j`(106)/`k`(107) move, `g`(103)/`G`(71) jump, `f`(102)/`/`(47)
toggle filter mode; `none` when the key is not one of those. -/
def listNavKey (l : ListState) (k : Key) : Option ListState :=
  match k.type with
  | .up => some l.moveUp
  | .down => some l.moveDown
  | .rune =>
    if k.rune = 106 then some l.moveDown
    else if k.rune = 107 then some l.moveUp
    else if k.rune = 103 then some l.moveToTop
    else if k.rune = 71 then some l.moveToBottom
    else if k.rune = 102 ∨ k.rune = 47 then some l.toggleFilterMode
    else none
  | _ => none

/-- `BoardsView.HandleKey`: Enter (outside filter mode) fires the selection
callback, which opens the work-item detail view when a row is selected. -/
def boardsHandleKey (a : AppState) (k : Key) : AppState × Bool :=
  if a.boardsList.filterMode then
    let r := listFilterModeKey a.boardsList k
    ({ a with boardsList := r.1 }, r.2)
  else if k.type = .enter then
    match boardsSelectedWorkItem a with
    | some item => (showWorkItemDetail a item, true)
    | none => (a, true)
  else
    match listNavKey a.boardsList k with
    | some l2 => ({ a with boardsList := l2 }, true)
    | none => (a, false)

/-- `PipelinesView.HandleKey`. -/
def pipelinesHandleKey (a : AppState) (k : Key) : AppState × Bool :=
  if a.pipelinesList.filterMode then
    let r := listFilterModeKey a.pipelinesList k
    ({ a with pipelinesList := r.1 }, r.2)
  else
    match listNavKey a.pipelinesList k with
    | some l2 => ({ a with pipelinesList := l2 }, true)
    | none => (a, false)

/-- `ReposView.HandleKey`. -/
def reposHandleKey (a : AppState) (k : Key) : AppState × Bool :=
  if a.reposList.filterMode then
    let r := listFilterModeKey a.reposList k
    ({ a with reposList := r.1 }, r.2)
  else
    match listNavKey a.reposList k with
    | some l2 => ({ a with reposList := l2 }, true)
    | none => (a, false)

/-- `PullRequestsView.HandleKey`. -/
def prsHandleKey (a : AppState) (k : Key) : AppState × Bool :=
  if a.prsList.filterMode then
    let r := listFilterModeKey a.prsList k
    ({ a with prsList := r.1 }, r.2)
  else if k.type = .enter then
    match prsSelectedPR a with
    | some pr => (showPRDetail a pr, true)
    | none => (a, true)
  else
    match listNavKey a.prsList k with
    | some l2 => ({ a with prsList := l2 }, true)
    | none => (a, false)

/-- `CopilotView.submit`: append the user message, clear the input, ask the
agent, and append its message, suggestions and non-empty data lines. -/
def copilotSubmit (ask : String → AgentResult) (a : AppState) : AppState :=
  let query := a.copilotInput.trim
  if query = "" then a
  else
    let result := ask query
    let hist := a.copilotHistory
      ++ [{ isUser := true, content := query }]
      ++ [{ content := result.message }]
      ++ result.suggestions.map (fun s => { content := "💡 " ++ s })
      ++ (result.dataLines.filter (fun line => line ≠ "")).map (fun line => { content := line })
    { a with copilotHistory := hist, copilotInput := "" }

/-- `CopilotView.HandleKey`: Enter submits, Backspace edits, every rune is
inserted into the input buffer; all three are consumed. -/
def copilotHandleKey (ask : String → AgentResult) (a : AppState) (k : Key) : AppState × Bool :=
  match k.type with
  | .enter => (copilotSubmit ask a, true)
  | .backspace => ({ a with copilotInput := a.copilotInput.dropRight 1 }, true)
  | .rune => ({ a with copilotInput := a.copilotInput ++ String.mk [Char.ofNat k.rune] }, true)
  | _ => (a, false)

/-- `App.getCurrentView().HandleKey(key)`: dispatch to the active view.
Dashboard and the two detail views consume nothing. -/
def viewHandleKey (ask : String → AgentResult) (a : AppState) (k : Key) : AppState × Bool :=
  match a.currentView with
  | .dashboard => (a, false)
  | .boards => boardsHandleKey a k
  | .pipelines => pipelinesHandleKey a k
  | .repos => reposHandleKey a k
  | .pullrequests => prsHandleKey a k
  | .copilot => copilotHandleKey ask a k
  | .workItemDetail => (a, false)
  | .prDetail => (a, false)

/-- The second `switch` of `App.handleInput`, reached only when the active
view declined the key: the global shortcuts (`q`(113)/`Q`(81) quit, digits
`1`-`5` (49-53) and `/`(47)/`:`(58) switch views, `r`(114)/`R`(82) launch a
refresh, `b`(98) leaves a detail view, Tab advances the tab bar and follows
it). -/
def handleGlobalKeys (a : AppState) (k : Key) : AppState × List Event :=
  match k.type with
  | .rune =>
    if k.rune = 113 ∨ k.rune = 81 then ({ a with running := false }, [])
    else if k.rune = 49 then switchToView a .dashboard
    else if k.rune = 50 then switchToView a .boards
    else if k.rune = 51 then switchToView a .pipelines
    else if k.rune = 52 then switchToView a .repos
    else if k.rune = 53 then switchToView a .pullrequests
    else if k.rune = 47 ∨ k.rune = 58 then switchToView a .copilot
    else if k.rune = 114 ∨ k.rune = 82 then (setStatus a "Refreshing...", [.refresh])
    else if k.rune = 98 then
      if a.isDetailView then ({ a with currentView := a.previousView }, [])
      else (a, [])
    else (a, [])
  | .tab => switchToTabView { a with tabBar := a.tabBar.next }
  | _ => (a, [])

/-- `App.handleInput`: interrupt and Escape first, then the active view's
handler, then the global shortcuts if the view declined.  The event list
records hook invocations and refresh launches in execution order. -/
def handleInput (ask : String → AgentResult) (a : AppState) (k : Key) : AppState × List Event :=
  match k.type with
  | .ctrlC => ({ a with running := false }, [])
  | .escape =>
    if a.isDetailView then ({ a with currentView := a.previousView }, [])
    else if a.currentView = .copilot then switchToView a .dashboard
    else (a, [])
  | _ =>
    let r := viewHandleKey ask a k
    if r.2 then (r.1, []) else handleGlobalKeys r.1 k

/-- One iteration of `App.Run`'s main loop, as an event trace: the frame is
drawn, one key is dispatched, and the next frame will draw the resulting
current view.  `render v` stands for the frame drawn while `v` is current. -/
def loopIter (ask : String → AgentResult) (a : AppState) (k : Key) : AppState × List Event :=
  let r := handleInput ask a k
  (r.1, r.2 ++ [.render r.1.currentView])

/-- `BoardsView.SetWorkItems`: rebuild the list items (`#id title [state]`
with the work-item-type icon) and remember the typed slice. -/
def boardsSetWorkItems (a : AppState) (items : List WorkItem) : AppState :=
  let listItems := items.map fun item =>
    { id := toString item.id
      icon := getWorkItemIcon item.type
      label := "#" ++ toString item.id ++ " " ++ item.title ++ " [" ++ item.state ++ "]" }
  { a with boardsWorkItems := items, boardsList := a.boardsList.setItems listItems }

/-- `PipelinesView.SetPipelines`. -/
def pipelinesSetPipelines (a : AppState) (items : List Pipeline) : AppState :=
  let listItems := items.map fun p =>
    { id := toString p.id
      icon := "🔧"
      label := "[" ++ toString p.id ++ "] " ++ p.fullPath : ListItem }
  { a with pipelinesList := a.pipelinesList.setItems listItems }

/-- `ReposView.SetRepositories`. -/
def reposSetRepositories (a : AppState) (items : List Repository) : AppState :=
  let listItems := items.map fun r =>
    { id := r.id
      icon := "📁"
      label := r.name ++ " (" ++ r.defaultBranchName ++ ")" : ListItem }
  { a with reposList := a.reposList.setItems listItems }

/-- `PullRequestsView.SetPullRequests`. -/
def prsSetPullRequests (a : AppState) (items : List PullRequest) : AppState :=
  let listItems := items.map fun pr =>
    { id := toString pr.pullRequestID
      icon := if pr.isDraft then "📝" else "🔀"
      label := "#" ++ toString pr.pullRequestID ++ " " ++ pr.title ++ " ("
        ++ pr.sourceBranch ++ "→" ++ pr.targetBranch ++ ")" : ListItem }
  { a with prsPRs := items, prsList := a.prsList.setItems listItems }

/-- `DashboardView.SetData`. -/
def dashboardSetData (a : AppState) (items : List WorkItem) (builds : List Build)
    (prs : List PullRequest) : AppState :=
  { a with dashboardWorkItems := items, dashboardBuilds := builds, dashboardPRs := prs }

/-- `App.refreshData`, one refresh cycle made pure: each of the five fetch
results updates its snapshot field (and the owning view) only on success; the
refresh timestamp is stamped and the "Data refreshed" message posted
unconditionally at the end. -/
def refreshData (a : AppState)
    (rWorkItems : Except String (List WorkItem))
    (rBuilds : Except String (List Build))
    (rPipelines : Except String (List Pipeline))
    (rRepos : Except String (List Repository))
    (rPRs : Except String (List PullRequest))
    (now : Nat) : AppState :=
  let a := { a with loading := true }
  let a := match rWorkItems with
    | .ok items => boardsSetWorkItems { a with workItems := items } items
    | .error _ => a
  let a := match rBuilds with
    | .ok bs => { a with builds := bs }
    | .error _ => a
  let a := match rPipelines with
    | .ok ps => pipelinesSetPipelines { a with pipelineList := ps } ps
    | .error _ => a
  let a := match rRepos with
    | .ok rs => reposSetRepositories { a with repoList := rs } rs
    | .error _ => a
  let a := match rPRs with
    | .ok prs => prsSetPullRequests { a with prList := prs } prs
    | .error _ => a
  let a := dashboardSetData a a.workItems a.builds a.prList
  let a := { a with lastRefresh := some now, loading := false }
  setStatus a "Data refreshed"

/-- The controller state at startup (`NewApp` + the top of `Run`). -/
def initApp : AppState := {}

/-! ## Supporting lemmas -/

/-- `firstTabIdx` only produces in-range indices. -/
theorem firstTabIdx_lt (tabs : List Tab) (id : String) (i : Nat)
    (h : firstTabIdx tabs id = some i) : i < tabs.length := by
  induction tabs generalizing i with
  | nil => simp [firstTabIdx] at h
  | cons tb rest ih =>
    rw [firstTabIdx] at h
    split_ifs at h with hid
    · have : i = 0 := by simpa using h.symm
      subst this
      simp
    · rw [Option.map_eq_some'] at h
      obtain ⟨j, hj, hji⟩ := h
      have := ih j hj
      simp only [List.length_cons]
      omega

/-- `next` does not change the tab list. -/
theorem TabBar.next_tabs (t : TabBar) : t.next.tabs = t.tabs := rfl

/-- The active index after `k` iterations of `next`, for an in-range start. -/
theorem TabBar.nextN_active (t : TabBar) (k : Nat) (h : t.active < t.tabs.length) :
    (t.nextN k).active = (t.active + k) % t.tabs.length := by
  induction k generalizing t with
  | zero =>
    simp [TabBar.nextN, Nat.mod_eq_of_lt h]
  | succ k ih =>
    have hpos : 0 < t.tabs.length := by omega
    have hnext : t.next.active < t.next.tabs.length := by
      simp only [TabBar.next]
      exact Nat.mod_lt _ hpos
    rw [TabBar.nextN, ih t.next hnext]
    simp only [TabBar.next]
    rw [Nat.mod_add_mod]
    congr 1
    omega

/-- `applyOp` does not change the tab list and keeps the active index in
range, as long as it starts in range. -/
theorem TabBar.applyOp_inv (t : TabBar) (op : TabOp) (h : t.active < t.tabs.length) :
    (t.applyOp op).tabs = t.tabs ∧ (t.applyOp op).active < (t.applyOp op).tabs.length := by
  cases op with
  | setActive i =>
    simp only [TabBar.applyOp, TabBar.setActive]
    split_ifs with hc
    · exact ⟨rfl, by simpa using (by omega : i.toNat < t.tabs.length)⟩
    · exact ⟨rfl, h⟩
  | setActiveByID id =>
    simp only [TabBar.applyOp, TabBar.setActiveByID]
    cases hfind : firstTabIdx t.tabs id with
    | none => exact ⟨rfl, h⟩
    | some i => exact ⟨rfl, by simpa using firstTabIdx_lt t.tabs id i hfind⟩
  | next =>
    have hpos : 0 < t.tabs.length := by omega
    exact ⟨rfl, by simpa [TabBar.applyOp, TabBar.next] using Nat.mod_lt _ hpos⟩

/-- The tab-bar range invariant is preserved by any operation sequence. -/
theorem TabBar.applyOps_inv (t : TabBar) (ops : List TabOp) (h : t.active < t.tabs.length) :
    (t.applyOps ops).active < (t.applyOps ops).tabs.length := by
  induction ops generalizing t with
  | nil => exact h
  | cons op ops ih =>
    rw [TabBar.applyOps, List.foldl_cons]
    exact ih _ (t.applyOp_inv op h).2

/-! ## C1: total key decoding -/

/-- **C1** — The key decoder is total on every read byte sequence: single
bytes map 3→interrupt, 9→Tab, 13→Enter, 27→Escape (only as a lone byte),
127→Backspace, everything else to a printable rune carrying that byte; the
3-byte sequences `27 '[' A/B/C/D` map to Up/Down/Right/Left; every other
multi-byte shape (2-byte reads, and unrecognized 3-byte reads) decodes to a
printable rune carrying the first byte. -/
theorem c1_key_decoder_total :
    (decodeKey [3] = ⟨.ctrlC, 0⟩) ∧
    (decodeKey [9] = ⟨.tab, 0⟩) ∧
    (decodeKey [13] = ⟨.enter, 0⟩) ∧
    (decodeKey [27] = ⟨.escape, 0⟩) ∧
    (decodeKey [127] = ⟨.backspace, 0⟩) ∧
    (∀ b : Nat, b ≠ 3 → b ≠ 9 → b ≠ 13 → b ≠ 27 → b ≠ 127 → decodeKey [b] = ⟨.rune, b⟩) ∧
    (decodeKey [27, 91, 65] = ⟨.up, 0⟩) ∧
    (decodeKey [27, 91, 66] = ⟨.down, 0⟩) ∧
    (decodeKey [27, 91, 67] = ⟨.right, 0⟩) ∧
    (decodeKey [27, 91, 68] = ⟨.left, 0⟩) ∧
    (∀ b0 b1 b2 : Nat,
      ¬(b0 = 27 ∧ b1 = 91 ∧ (b2 = 65 ∨ b2 = 66 ∨ b2 = 67 ∨ b2 = 68)) →
      decodeKey [b0, b1, b2] = ⟨.rune, b0⟩) ∧
    (∀ b0 b1 : Nat, decodeKey [b0, b1] = ⟨.rune, b0⟩) := by
  refine ⟨rfl, rfl, rfl, rfl, rfl, ?_, rfl, rfl, rfl, rfl, ?_, ?_⟩
  · intro b h3 h9 h13 h27 h127
    simp [decodeKey, h3, h9, h13, h27, h127]
  · intro b0 b1 b2 h
    simp only [decodeKey]
    split_ifs with h1 h2 h3 h4 h5
    · exact absurd ⟨h1.1, h1.2, Or.inl h2⟩ h
    · exact absurd ⟨h1.1, h1.2, Or.inr (Or.inl h3)⟩ h
    · exact absurd ⟨h1.1, h1.2, Or.inr (Or.inr (Or.inl h4))⟩ h
    · exact absurd ⟨h1.1, h1.2, Or.inr (Or.inr (Or.inr h5))⟩ h
    · rfl
    · rfl
  · intro b0 b1
    rfl

/-- Witness for C1: the quantified parts of the theorem applied at the byte
`104` (`h`), at the non-escape 3-byte read `65 66 67`, and at the 2-byte
read `27 79`. -/
theorem c1_key_decoder_total_witness :
    decodeKey [104] = ⟨.rune, 104⟩ ∧
    decodeKey [65, 66, 67] = ⟨.rune, 65⟩ ∧
    decodeKey [27, 79] = ⟨.rune, 27⟩ :=
  ⟨c1_key_decoder_total.2.2.2.2.2.1 104 (by decide) (by decide) (by decide) (by decide)
      (by decide),
   c1_key_decoder_total.2.2.2.2.2.2.2.2.2.2.1 65 66 67 (by decide),
   c1_key_decoder_total.2.2.2.2.2.2.2.2.2.2.2 27 79⟩

/-! ## C8: ellipsis truncation -/

/-- **C8** — `Truncate` returns the text unchanged when it fits in `max`
bytes; otherwise, for `max > 3` it keeps the first `max - 3` bytes and
appends the three-byte ellipsis `...`, and for `max ≤ 3` it keeps exactly the
first `max` bytes with no ellipsis. -/
theorem c8_truncate_spec (s : List Nat) (max : Nat) :
    (s.length ≤ max → truncate s max = s) ∧
    (max < s.length → 3 < max → truncate s max = s.take (max - 3) ++ [46, 46, 46]) ∧
    (max < s.length → max ≤ 3 → truncate s max = s.take max) := by
  unfold truncate
  refine ⟨?_, ?_, ?_⟩ <;> intros <;> split_ifs <;> first | rfl | (exfalso; omega)

/-- Witness for C8 on the bytes of `"Hello"` with `max = 4` and `max = 2`. -/
theorem c8_truncate_spec_witness :
    truncate [72, 101, 108, 108, 111] 4 = [72, 101, 108, 108, 111].take 1 ++ [46, 46, 46] ∧
    truncate [72, 101, 108, 108, 111] 2 = [72, 101, 108, 108, 111].take 2 :=
  ⟨(c8_truncate_spec [72, 101, 108, 108, 111] 4).2.1 (by decide) (by decide),
   (c8_truncate_spec [72, 101, 108, 108, 111] 2).2.2 (by decide) (by decide)⟩

/-! ## C9: the tab bar's cyclic law -/

/-- **C9** — On a bar with `N` tabs and an in-range active index, `N`
consecutive `Next` calls return the active index to its original value. -/
theorem c9_tabbar_next_cycle (t : TabBar) (h : t.active < t.tabs.length) :
    (t.nextN t.tabs.length).active = t.active := by
  rw [TabBar.nextN_active t t.tabs.length h, Nat.add_mod_right]
  exact Nat.mod_eq_of_lt h

/-- Witness for C9 on the six application tabs. -/
theorem c9_tabbar_next_cycle_witness :
    ((newTabBar appTabs).nextN (newTabBar appTabs).tabs.length).active
      = (newTabBar appTabs).active :=
  c9_tabbar_next_cycle (newTabBar appTabs) (by decide)

/-! ## C10: tab-bar index invariant -/

/-- **C10** — On a bar constructed with at least one tab, the active index
stays in range (`active < number of tabs`; the lower bound `0 ≤ active` is
carried by the `Nat` type, matching the guards of the source) under every
sequence of `SetActive` / `SetActiveByID` / `Next` operations, so `ActiveTab`
never returns `none`. -/
theorem c10_tabbar_invariant (tabs : List Tab) (h : tabs ≠ []) (ops : List TabOp) :
    ((newTabBar tabs).applyOps ops).active < ((newTabBar tabs).applyOps ops).tabs.length ∧
    ((newTabBar tabs).applyOps ops).activeTab ≠ none := by
  have h0 : (newTabBar tabs).active < (newTabBar tabs).tabs.length := by
    simpa [newTabBar] using List.length_pos.mpr h
  have hinv := (newTabBar tabs).applyOps_inv ops h0
  refine ⟨hinv, ?_⟩
  rw [TabBar.activeTab, Ne, List.get?_eq_none]
  omega

/-- Witness for C10: the six application tabs under a mixed operation
sequence. -/
theorem c10_tabbar_invariant_witness :
    ((newTabBar appTabs).applyOps
        [.next, .setActive 4, .setActive (-1), .setActiveByID "copilot",
         .setActiveByID "nope", .next, .next]).active
      < ((newTabBar appTabs).applyOps
        [.next, .setActive 4, .setActive (-1), .setActiveByID "copilot",
         .setActiveByID "nope", .next, .next]).tabs.length ∧
    ((newTabBar appTabs).applyOps
        [.next, .setActive 4, .setActive (-1), .setActiveByID "copilot",
         .setActiveByID "nope", .next, .next]).activeTab ≠ none :=
  c10_tabbar_invariant appTabs (by decide)
    [.next, .setActive 4, .setActive (-1), .setActiveByID "copilot",
     .setActiveByID "nope", .next, .next]

/-! ## C4: refresh cycle with a failing builds fetch -/

/-- **C4** — In a refresh cycle where only the builds fetch fails, the
snapshot keeps its pre-refresh build collection while work items, pipelines,
repositories and pull requests take the fetched values; the last-refresh
timestamp is stamped and the status message reads "Data refreshed". -/
theorem c4_refresh_builds_failure (a : AppState) (wi : List WorkItem) (e : String)
    (pl : List Pipeline) (rp : List Repository) (prs : List PullRequest) (now : Nat) :
    (refreshData a (.ok wi) (.error e) (.ok pl) (.ok rp) (.ok prs) now).builds = a.builds ∧
    (refreshData a (.ok wi) (.error e) (.ok pl) (.ok rp) (.ok prs) now).workItems = wi ∧
    (refreshData a (.ok wi) (.error e) (.ok pl) (.ok rp) (.ok prs) now).pipelineList = pl ∧
    (refreshData a (.ok wi) (.error e) (.ok pl) (.ok rp) (.ok prs) now).repoList = rp ∧
    (refreshData a (.ok wi) (.error e) (.ok pl) (.ok rp) (.ok prs) now).prList = prs ∧
    (refreshData a (.ok wi) (.error e) (.ok pl) (.ok rp) (.ok prs) now).lastRefresh = some now ∧
    (refreshData a (.ok wi) (.error e) (.ok pl) (.ok rp) (.ok prs) now).statusMessage
      = "Data refreshed" := by
  refine ⟨?_, ?_, ?_, ?_, ?_, ?_, ?_⟩ <;>
    simp [refreshData, boardsSetWorkItems, pipelinesSetPipelines, reposSetRepositories,
      prsSetPullRequests, dashboardSetData, setStatus]

/-! ## C2: scroll and selection invariant of the list widget -/

/-- With no filter applied, the active sequence is the identity index range
over the items. -/
theorem activeIndices_of_nofilter (s : ListState) (hf : s.filtered = []) :
    s.activeIndices = List.range s.items.length := by
  simp [ListState.activeIndices, hf]

/-- The inductive invariant for the movement operations: fixed height `H`,
no filter, `N` items, scroll within `[0, max 0 (N-H)]`, selection inside the
scroll window and within `[0, max 0 (N-1)]`. -/
def MoveInv (N H : Int) (s : ListState) : Prop :=
  s.height = H ∧ s.filtered = [] ∧ (s.items.length : Int) = N ∧
  0 ≤ s.scroll ∧ s.scroll ≤ max 0 (N - H) ∧
  s.scroll ≤ s.selected ∧ s.selected < s.scroll + H ∧ s.selected ≤ max 0 (N - 1)

/-- `adjustScroll` changes only the scroll offset. -/
theorem adjustScroll_fields (s : ListState) :
    s.adjustScroll.title = s.title ∧ s.adjustScroll.items = s.items ∧
    s.adjustScroll.filtered = s.filtered ∧ s.adjustScroll.selected = s.selected ∧
    s.adjustScroll.height = s.height ∧ s.adjustScroll.filterMode = s.filterMode ∧
    s.adjustScroll.filterQuery = s.filterQuery := by
  unfold ListState.adjustScroll
  split_ifs <;> simp

/-- The scroll offset computed by `adjustScroll` when a height is set. -/
theorem adjustScroll_scroll (s : ListState) (hc : ¬ s.height ≤ 0) :
    s.adjustScroll.scroll =
      if s.selected ≥ (if s.selected < s.scroll then s.selected else s.scroll) + s.height
      then s.selected - s.height + 1
      else (if s.selected < s.scroll then s.selected else s.scroll) := by
  unfold ListState.adjustScroll
  rw [if_neg hc]

/-- `adjustScroll` re-establishes the full invariant from bounds on the
selection and scroll alone. -/
theorem adjustScroll_moveInv (N H : Int) (hH : 0 < H) (s : ListState)
    (h1 : s.height = H) (h2 : s.filtered = []) (h3 : (s.items.length : Int) = N)
    (h4 : 0 ≤ s.scroll) (h5 : s.scroll ≤ max 0 (N - H))
    (h6 : 0 ≤ s.selected) (h7 : s.selected ≤ max 0 (N - 1)) :
    MoveInv N H s.adjustScroll := by
  obtain ⟨ht, hi, hfi, hsel, hh, _, _⟩ := adjustScroll_fields s
  have hcn : ¬ s.height ≤ 0 := by omega
  have hs := adjustScroll_scroll s hcn
  refine ⟨hh.trans h1, hfi.trans h2, by rw [hi]; exact h3, ?_, ?_, ?_, ?_, ?_⟩
  · rw [hs]
    split_ifs <;> omega
  · rw [hs]
    split_ifs <;> omega
  · rw [hs, hsel]
    split_ifs <;> omega
  · rw [hs, hsel]
    split_ifs <;> omega
  · rw [hsel]
    exact h7

/-- Each movement operation preserves the invariant. -/
theorem applyMove_moveInv (N H : Int) (hH : 0 < H) (s : ListState) (op : MoveOp)
    (h : MoveInv N H s) : MoveInv N H (s.applyMove op) := by
  obtain ⟨h1, h2, h3, h4, h5, h6, h7, h8⟩ := h
  have hact : ((s.activeIndices).length : Int) = N := by
    rw [activeIndices_of_nofilter s h2, List.length_range]
    exact h3
  cases op with
  | up =>
    simp only [ListState.applyMove, ListState.moveUp]
    split_ifs with hc
    · exact adjustScroll_moveInv N H hH _ h1 h2 h3 h4 h5
        (by show (0 : Int) ≤ s.selected - 1; omega)
        (by show s.selected - 1 ≤ max 0 (N - 1); omega)
    · exact ⟨h1, h2, h3, h4, h5, h6, h7, h8⟩
  | down =>
    simp only [ListState.applyMove, ListState.moveDown]
    split_ifs with hc
    · rw [hact] at hc
      exact adjustScroll_moveInv N H hH _ h1 h2 h3 h4 h5
        (by show (0 : Int) ≤ s.selected + 1; omega)
        (by show s.selected + 1 ≤ max 0 (N - 1); omega)
    · exact ⟨h1, h2, h3, h4, h5, h6, h7, h8⟩
  | top =>
    simp only [ListState.applyMove, ListState.moveToTop]
    exact ⟨h1, h2, h3, le_refl 0, le_max_left 0 (N - H), le_refl 0,
      by show (0 : Int) < 0 + H; omega, le_max_left 0 (N - 1)⟩
  | bottom =>
    simp only [ListState.applyMove, ListState.moveToBottom]
    split_ifs with hc
    · have hcN : 0 < N := by rw [← hact]; exact_mod_cast hc
      refine adjustScroll_moveInv N H hH _ h1 h2 h3 h4 h5 ?_ ?_
      · show (0 : Int) ≤ (s.activeIndices.length : Int) - 1
        omega
      · show ((s.activeIndices.length : Int) - 1) ≤ max 0 (N - 1)
        rw [hact]
        omega
    · exact ⟨h1, h2, h3, h4, h5, h6, h7, h8⟩

/-- The invariant is preserved by any sequence of movement operations. -/
theorem applyMoves_moveInv (N H : Int) (hH : 0 < H) (s : ListState) (ops : List MoveOp)
    (h : MoveInv N H s) : MoveInv N H (s.applyMoves ops) := by
  induction ops generalizing s with
  | nil => exact h
  | cons op ops ih =>
    rw [ListState.applyMoves, List.foldl_cons]
    exact ih _ (applyMove_moveInv N H hH s op h)

/-- **C2** — For a list of `N` items under a fixed viewport height `H > 0`,
after any sequence of MoveUp/MoveDown/MoveToTop/MoveToBottom operations the
scroll offset satisfies `0 ≤ scroll ≤ max 0 (N - H)` and the selection sits
inside the viewport window, `scroll ≤ selection < scroll + H`. -/
theorem c2_scroll_selection_invariant (items : List ListItem) (H : Int) (hH : 0 < H)
    (ops : List MoveOp) :
    0 ≤ ((listWithHeight items H).applyMoves ops).scroll ∧
    ((listWithHeight items H).applyMoves ops).scroll ≤ max 0 ((items.length : Int) - H) ∧
    ((listWithHeight items H).applyMoves ops).scroll
      ≤ ((listWithHeight items H).applyMoves ops).selected ∧
    ((listWithHeight items H).applyMoves ops).selected
      < ((listWithHeight items H).applyMoves ops).scroll + H := by
  have h0 : MoveInv (items.length : Int) H (listWithHeight items H) := by
    refine ⟨rfl, rfl, rfl, ?_, ?_, ?_, ?_, ?_⟩
    · show (0 : Int) ≤ 0
      omega
    · show (0 : Int) ≤ max 0 ((items.length : Int) - H)
      exact le_max_left _ _
    · show (0 : Int) ≤ 0
      omega
    · show (0 : Int) < 0 + H
      omega
    · show (0 : Int) ≤ max 0 ((items.length : Int) - 1)
      exact le_max_left _ _
  have h := applyMoves_moveInv (items.length : Int) H hH _ ops h0
  exact ⟨h.2.2.2.1, h.2.2.2.2.1, h.2.2.2.2.2.1, h.2.2.2.2.2.2.1⟩

/-- Witness for C2: three items, height 2, two MoveDown operations (the
spec's own scenario: selection 2, scroll 1). -/
theorem c2_scroll_selection_invariant_witness :
    0 ≤ ((listWithHeight [{}, {}, {}] 2).applyMoves [.down, .down]).scroll ∧
    ((listWithHeight [{}, {}, {}] 2).applyMoves [.down, .down]).scroll
      ≤ max 0 ((([{}, {}, {}] : List ListItem).length : Int) - 2) ∧
    ((listWithHeight [{}, {}, {}] 2).applyMoves [.down, .down]).scroll
      ≤ ((listWithHeight [{}, {}, {}] 2).applyMoves [.down, .down]).selected ∧
    ((listWithHeight [{}, {}, {}] 2).applyMoves [.down, .down]).selected
      < ((listWithHeight [{}, {}, {}] 2).applyMoves [.down, .down]).scroll + 2 :=
  c2_scroll_selection_invariant [{}, {}, {}] 2 (by decide) [.down, .down]

/-! ## C3: the filtered index subsequence -/

/-- Counterexample to C3 as stated: on a one-item list with label "alpha",
applying the non-empty filter query "zz" (which matches nothing) leaves the
active sequence equal to the full index range `[0]`, not to the empty
matching subsequence — `activeIndices` falls back to the full sequence
whenever the filtered subsequence is empty. -/
theorem c3_counterexample :
    ¬ ((((newList "L").setItems [{ label := "alpha" }]).setFilter "zz").activeIndices
        = matchingIndices ((newList "L").setItems [{ label := "alpha" }]).items "zz") := by
  decide

/-- **C3 (amended)** — With a non-empty filter query applied, the active
index subsequence equals the indices of the items whose label contains the
query case-insensitively, in original order, *provided at least one item
matches*; when no item matches, the code falls back to the full index
sequence instead of the empty one. -/
theorem c3_filter_amended (l : ListState) (q : String) (hq : q ≠ "") :
    (matchingIndices l.items q ≠ [] →
      (l.setFilter q).activeIndices = matchingIndices l.items q) ∧
    (matchingIndices l.items q = [] →
      (l.setFilter q).activeIndices = List.range l.items.length) := by
  have hsf : l.setFilter q =
      { l with filterQuery := q, filtered := matchingIndices l.items q,
               selected := 0, scroll := 0 } := by
    unfold ListState.setFilter ListState.applyFilter
    rw [if_neg (by simpa using hq)]
  constructor
  · intro hm
    rw [hsf]
    simp [ListState.activeIndices, List.length_pos.mpr hm]
  · intro hm
    rw [hsf]
    simp [ListState.activeIndices, hm]

/-- Witness for C3 (amended): the query "ALP" case-insensitively selects
exactly the first item of `["Alpha", "beta"]`. -/
theorem c3_filter_amended_witness :
    (((newList "L").setItems [{ label := "Alpha" }, { label := "beta" }]).setFilter
        "ALP").activeIndices
      = matchingIndices
          ((newList "L").setItems [{ label := "Alpha" }, { label := "beta" }]).items "ALP" :=
  (c3_filter_amended ((newList "L").setItems [{ label := "Alpha" }, { label := "beta" }])
    "ALP" (by decide)).1 (by decide)

/-! ## Controller lemmas -/

/-- The enter hook never changes which view is current. -/
theorem viewOnEnter_currentView (a : AppState) : (viewOnEnter a).currentView = a.currentView := by
  cases hv : a.currentView <;> simp [viewOnEnter, hv]

/-- The exit hook never changes which view is current. -/
theorem viewOnExit_currentView (a : AppState) : (viewOnExit a).currentView = a.currentView := by
  cases hv : a.currentView <;> simp [viewOnExit, hv]

/-- `switchToView` to the already-current view does nothing. -/
theorem switchToView_self (a : AppState) (id : ViewID) (h : a.currentView = id) :
    switchToView a id = (a, []) := by
  unfold switchToView
  rw [if_pos h]

/-- On an actual view change, `switchToView` makes `id` current and emits the
exit hook of the old view followed by the enter hook of the new one. -/
theorem switchToView_spec (a : AppState) (id : ViewID) (h : a.currentView ≠ id) :
    (switchToView a id).1.currentView = id ∧
    (switchToView a id).2 = [.exit a.currentView, .enter id] := by
  unfold switchToView
  rw [if_neg h]
  refine ⟨?_, rfl⟩
  cases htab : tabIdForView id <;> simp [htab, viewOnEnter_currentView]

/-- The transition shape of `switchToView`: whenever it changes the current
view, its events are exactly exit-then-enter. -/
theorem switchToView_transition (a : AppState) (id : ViewID) :
    (switchToView a id).1.currentView ≠ a.currentView →
      (switchToView a id).2
        = [.exit a.currentView, .enter (switchToView a id).1.currentView] := by
  by_cases hcv : a.currentView = id
  · rw [switchToView_self a id hcv]
    intro h
    exact absurd rfl h
  · intro h
    have hs := switchToView_spec a id hcv
    rw [hs.2, hs.1]

/-- The transition shape of `switchToTabView`. -/
theorem switchToTabView_transition (a : AppState) :
    (switchToTabView a).1.currentView ≠ a.currentView →
      (switchToTabView a).2
        = [.exit a.currentView, .enter (switchToTabView a).1.currentView] := by
  unfold switchToTabView
  cases hta : a.tabBar.activeTab with
  | none => intro h; exact absurd rfl h
  | some tb =>
    dsimp only
    split_ifs <;>
      first
        | exact switchToView_transition a _
        | (intro h; exact absurd rfl h)

set_option maxHeartbeats 1000000 in
/-- The transition shape of the global-shortcut dispatch: whenever it changes
the current view it either goes through `switchToView` (emitting
exit-then-enter) or is the `b` return from a detail view (no events). -/
theorem handleGlobalKeys_transition (a : AppState) (k : Key) :
    (handleGlobalKeys a k).1.currentView ≠ a.currentView →
      ((handleGlobalKeys a k).2
          = [.exit a.currentView, .enter (handleGlobalKeys a k).1.currentView] ∨
       ((handleGlobalKeys a k).2 = [] ∧ a.currentView.isDetail = true)) := by
  obtain ⟨kt, kr⟩ := k
  cases kt <;> simp only [handleGlobalKeys]
  case tab =>
    intro h
    exact Or.inl (switchToTabView_transition { a with tabBar := a.tabBar.next } h)
  case rune =>
    split_ifs with h1 h2 h3 h4 h5 h6 h7 h8 h9 h10
    · intro h; exact absurd rfl h
    · exact fun h => Or.inl (switchToView_transition a _ h)
    · exact fun h => Or.inl (switchToView_transition a _ h)
    · exact fun h => Or.inl (switchToView_transition a _ h)
    · exact fun h => Or.inl (switchToView_transition a _ h)
    · exact fun h => Or.inl (switchToView_transition a _ h)
    · exact fun h => Or.inl (switchToView_transition a _ h)
    · intro h; exact absurd rfl h
    · intro h
      exact Or.inr ⟨rfl, h10⟩
    · intro h; exact absurd rfl h
    · intro h; exact absurd rfl h
  all_goals exact fun h => absurd rfl h

/-- `copilotSubmit` never changes which view is current. -/
theorem copilotSubmit_currentView (ask : String → AgentResult) (a : AppState) :
    (copilotSubmit ask a).currentView = a.currentView := by
  unfold copilotSubmit
  by_cases h : a.copilotInput.trim = "" <;> simp [h]

/-- A declined key in the filter-mode branch leaves the list untouched. -/
theorem listFilterModeKey_false (l : ListState) (k : Key)
    (h : (listFilterModeKey l k).2 = false) : (listFilterModeKey l k).1 = l := by
  obtain ⟨kt, kr⟩ := k
  rw [listFilterModeKey] at h ⊢
  cases kt <;> simp_all

/-- `BoardsView.HandleKey` leaves the state untouched when it declines. -/
theorem boardsHandleKey_false (a : AppState) (k : Key)
    (h : (boardsHandleKey a k).2 = false) : (boardsHandleKey a k).1 = a := by
  rw [boardsHandleKey] at h ⊢
  dsimp only at h ⊢
  split_ifs at h ⊢ with hf he
  · rw [listFilterModeKey_false _ _ h]
  · rcases hsel : boardsSelectedWorkItem a with _ | wi <;> rw [hsel] at h <;> simp at h
  · rcases hnav : listNavKey a.boardsList k with _ | l2
    · rfl
    · rw [hnav] at h
      simp at h

/-- `PipelinesView.HandleKey` leaves the state untouched when it declines. -/
theorem pipelinesHandleKey_false (a : AppState) (k : Key)
    (h : (pipelinesHandleKey a k).2 = false) : (pipelinesHandleKey a k).1 = a := by
  rw [pipelinesHandleKey] at h ⊢
  dsimp only at h ⊢
  split_ifs at h ⊢ with hf
  · rw [listFilterModeKey_false _ _ h]
  · rcases hnav : listNavKey a.pipelinesList k with _ | l2
    · rfl
    · rw [hnav] at h
      simp at h

/-- `ReposView.HandleKey` leaves the state untouched when it declines. -/
theorem reposHandleKey_false (a : AppState) (k : Key)
    (h : (reposHandleKey a k).2 = false) : (reposHandleKey a k).1 = a := by
  rw [reposHandleKey] at h ⊢
  dsimp only at h ⊢
  split_ifs at h ⊢ with hf
  · rw [listFilterModeKey_false _ _ h]
  · rcases hnav : listNavKey a.reposList k with _ | l2
    · rfl
    · rw [hnav] at h
      simp at h

/-- `PullRequestsView.HandleKey` leaves the state untouched when it
declines. -/
theorem prsHandleKey_false (a : AppState) (k : Key)
    (h : (prsHandleKey a k).2 = false) : (prsHandleKey a k).1 = a := by
  rw [prsHandleKey] at h ⊢
  dsimp only at h ⊢
  split_ifs at h ⊢ with hf he
  · rw [listFilterModeKey_false _ _ h]
  · rcases hsel : prsSelectedPR a with _ | pr <;> rw [hsel] at h <;> simp at h
  · rcases hnav : listNavKey a.prsList k with _ | l2
    · rfl
    · rw [hnav] at h
      simp at h

/-- `CopilotView.HandleKey` leaves the state untouched when it declines. -/
theorem copilotHandleKey_false (ask : String → AgentResult) (a : AppState) (k : Key)
    (h : (copilotHandleKey ask a k).2 = false) : (copilotHandleKey ask a k).1 = a := by
  obtain ⟨kt, kr⟩ := k
  rw [copilotHandleKey] at h ⊢
  cases kt <;> simp_all

/-- When a view's `HandleKey` declines the key, it has not touched the
state. -/
theorem viewHandleKey_false (ask : String → AgentResult) (a : AppState) (k : Key)
    (h : (viewHandleKey ask a k).2 = false) : (viewHandleKey ask a k).1 = a := by
  cases hv : a.currentView <;> simp only [viewHandleKey, hv] at h ⊢
  case boards =>
    rw [boardsHandleKey_false a k h]
  case pipelines =>
    rw [pipelinesHandleKey_false a k h]
  case repos =>
    rw [reposHandleKey_false a k h]
  case pullrequests =>
    rw [prsHandleKey_false a k h]
  case copilot =>
    rw [copilotHandleKey_false ask a k h]

/-- A view's `HandleKey` either leaves the current view unchanged or jumps to
one of the two detail views (the selection callbacks of Boards and PRs). -/
theorem viewHandleKey_currentView (ask : String → AgentResult) (a : AppState) (k : Key) :
    (viewHandleKey ask a k).1.currentView = a.currentView ∨
    (viewHandleKey ask a k).1.currentView = .workItemDetail ∨
    (viewHandleKey ask a k).1.currentView = .prDetail := by
  obtain ⟨kt, kr⟩ := k
  cases hv : a.currentView
  case dashboard => exact Or.inl (by simp [viewHandleKey, hv])
  case workItemDetail => exact Or.inl (by simp [viewHandleKey, hv])
  case prDetail => exact Or.inl (by simp [viewHandleKey, hv])
  case boards =>
    simp only [viewHandleKey, hv]
    rw [boardsHandleKey]
    dsimp only
    split_ifs with hf he
    · exact Or.inl hv
    · rcases hsel : boardsSelectedWorkItem a with _ | wi
      · exact Or.inl hv
      · right; left; rfl
    · rcases hnav : listNavKey a.boardsList ⟨kt, kr⟩ with _ | l2
      · exact Or.inl hv
      · exact Or.inl hv
  case pipelines =>
    simp only [viewHandleKey, hv]
    rw [pipelinesHandleKey]
    dsimp only
    split_ifs with hf
    · exact Or.inl hv
    · rcases hnav : listNavKey a.pipelinesList ⟨kt, kr⟩ with _ | l2
      · exact Or.inl hv
      · exact Or.inl hv
  case repos =>
    simp only [viewHandleKey, hv]
    rw [reposHandleKey]
    dsimp only
    split_ifs with hf
    · exact Or.inl hv
    · rcases hnav : listNavKey a.reposList ⟨kt, kr⟩ with _ | l2
      · exact Or.inl hv
      · exact Or.inl hv
  case pullrequests =>
    simp only [viewHandleKey, hv]
    rw [prsHandleKey]
    dsimp only
    split_ifs with hf he
    · exact Or.inl hv
    · rcases hsel : prsSelectedPR a with _ | pr
      · exact Or.inl hv
      · right; right; rfl
    · rcases hnav : listNavKey a.prsList ⟨kt, kr⟩ with _ | l2
      · exact Or.inl hv
      · exact Or.inl hv
  case copilot =>
    simp only [viewHandleKey, hv]
    rw [copilotHandleKey]
    cases kt <;>
      first
        | exact Or.inl hv
        | exact Or.inl ((copilotSubmit_currentView ask a).trans hv)

/-- The transition shape of the view-then-globals dispatch shared by every
key that is not interrupt or Escape. -/
theorem generic_dispatch_transition (ask : String → AgentResult) (a : AppState) (k : Key)
    (d : AppState × List Event)
    (hd : d = if (viewHandleKey ask a k).2 then ((viewHandleKey ask a k).1, [])
          else handleGlobalKeys (viewHandleKey ask a k).1 k) :
    d.1.currentView ≠ a.currentView →
      (d.2 = [.exit a.currentView, .enter d.1.currentView] ∨
       (d.2 = [] ∧
        (d.1.currentView.isDetail = true ∨ a.currentView.isDetail = true))) := by
  subst hd
  by_cases hh : (viewHandleKey ask a k).2 = true
  · simp only [hh, if_true]
    intro h
    refine Or.inr ⟨by trivial, ?_⟩
    rcases viewHandleKey_currentView ask a k with hcv | hcv | hcv
    · exact absurd hcv h
    · exact Or.inl (by rw [hcv]; rfl)
    · exact Or.inl (by rw [hcv]; rfl)
  · have hf : (viewHandleKey ask a k).2 = false := by simpa using hh
    have hr1 := viewHandleKey_false ask a k hf
    simp only [hf, Bool.false_eq_true, if_false, hr1]
    intro h
    rcases handleGlobalKeys_transition a k h with he | ⟨he, hdet⟩
    · exact Or.inl he
    · exact Or.inr ⟨he, Or.inr hdet⟩

/-- The transition shape of one key dispatch: whenever the current view
changes, either the events are exactly exit-then-enter, or no hook ran and a
detail view is involved (detail entry through the selection callback, detail
return through Escape or `b`). -/
theorem handleInput_transition (ask : String → AgentResult) (a : AppState) (k : Key) :
    (handleInput ask a k).1.currentView ≠ a.currentView →
      ((handleInput ask a k).2
          = [.exit a.currentView, .enter (handleInput ask a k).1.currentView] ∨
       ((handleInput ask a k).2 = [] ∧
        ((handleInput ask a k).1.currentView.isDetail = true ∨
         a.currentView.isDetail = true))) := by
  obtain ⟨kt, kr⟩ := k
  cases kt
  case ctrlC => intro h; exact absurd rfl h
  case escape =>
    simp only [handleInput]
    by_cases hd : a.isDetailView
    · simp only [hd, if_true]
      intro h
      exact Or.inr ⟨by trivial, Or.inr hd⟩
    · simp only [hd, Bool.false_eq_true, if_false]
      by_cases hc : a.currentView = ViewID.copilot
      · rw [if_pos hc]
        intro h
        exact Or.inl (switchToView_transition a .dashboard h)
      · rw [if_neg hc]
        intro h
        exact absurd rfl h
  case rune => exact generic_dispatch_transition ask a ⟨.rune, kr⟩ _ rfl
  case enter => exact generic_dispatch_transition ask a ⟨.enter, kr⟩ _ rfl
  case backspace => exact generic_dispatch_transition ask a ⟨.backspace, kr⟩ _ rfl
  case tab => exact generic_dispatch_transition ask a ⟨.tab, kr⟩ _ rfl
  case up => exact generic_dispatch_transition ask a ⟨.up, kr⟩ _ rfl
  case down => exact generic_dispatch_transition ask a ⟨.down, kr⟩ _ rfl
  case left => exact generic_dispatch_transition ask a ⟨.left, kr⟩ _ rfl
  case right => exact generic_dispatch_transition ask a ⟨.right, kr⟩ _ rfl

/-! ## C5: enter/exit lifecycle hooks across view transitions -/

/-- A concrete work item driving the C5 scenario. -/
def c5WorkItem : WorkItem :=
  { id := 1
    fields := [("System.Title", "Fix login bug"), ("System.State", "Active"),
               ("System.WorkItemType", "Bug")] }

/-- An inert agent stub for the C5 scenario (the agent is never consulted). -/
def c5Ask : String → AgentResult := fun _ => {}

/-- The controller right after startup and one refresh cycle that found a
single work item. -/
def c5AfterRefresh : AppState :=
  refreshData initApp (.ok [c5WorkItem]) (.ok []) (.ok []) (.ok []) (.ok []) 0

/-- The controller after additionally pressing `2` (switch to Boards). -/
def c5OnBoards : AppState := (handleInput c5Ask c5AfterRefresh ⟨.rune, 50⟩).1

/-- Counterexample to C5 as stated: from the Boards view with a selected work
item, pressing Enter transitions Boards → WorkItemDetail, yet the iteration's
trace holds only the render of the entered view — neither the exit hook of
Boards nor the enter hook of WorkItemDetail is invoked, so the entered view
is rendered without its enter hook ever running. -/
theorem c5_counterexample :
    c5OnBoards.currentView = ViewID.boards ∧
    (loopIter c5Ask c5OnBoards ⟨.enter, 0⟩).1.currentView = ViewID.workItemDetail ∧
    (loopIter c5Ask c5OnBoards ⟨.enter, 0⟩).2 = [.render ViewID.workItemDetail] := by
  decide

/-- **C5 (amended)** — On every view transition of the controller, either the
transition goes through `switchToView` and the trace is exactly the left
view's exit hook, then the entered view's enter hook, then the render of the
entered view; or the transition enters or leaves a detail view (item
selection, Escape, or `b`), in which case no lifecycle hook is invoked at
all and the frame is rendered directly. -/
theorem c5_lifecycle_amended (ask : String → AgentResult) (a : AppState) (k : Key) :
    (loopIter ask a k).1.currentView ≠ a.currentView →
      ((loopIter ask a k).2
          = [.exit a.currentView, .enter (loopIter ask a k).1.currentView,
             .render (loopIter ask a k).1.currentView] ∨
       ((loopIter ask a k).2 = [.render (loopIter ask a k).1.currentView] ∧
        ((loopIter ask a k).1.currentView.isDetail = true ∨
         a.currentView.isDetail = true))) := by
  intro h
  have h2 : (handleInput ask a k).1.currentView ≠ a.currentView := h
  rcases handleInput_transition ask a k h2 with he | ⟨he, hdet⟩
  · left
    show (handleInput ask a k).2 ++ [.render (handleInput ask a k).1.currentView] = _
    rw [he]
    rfl
  · right
    refine ⟨?_, hdet⟩
    show (handleInput ask a k).2 ++ [.render (handleInput ask a k).1.currentView] = _
    rw [he]
    rfl

/-- Witness for C5 (amended): pressing `2` on the Dashboard transitions to
Boards with the full exit-enter-render trace. -/
theorem c5_lifecycle_amended_witness :
    (loopIter c5Ask c5AfterRefresh ⟨.rune, 50⟩).2
        = [.exit c5AfterRefresh.currentView,
           .enter (loopIter c5Ask c5AfterRefresh ⟨.rune, 50⟩).1.currentView,
           .render (loopIter c5Ask c5AfterRefresh ⟨.rune, 50⟩).1.currentView] ∨
    ((loopIter c5Ask c5AfterRefresh ⟨.rune, 50⟩).2
        = [.render (loopIter c5Ask c5AfterRefresh ⟨.rune, 50⟩).1.currentView] ∧
     ((loopIter c5Ask c5AfterRefresh ⟨.rune, 50⟩).1.currentView.isDetail = true ∨
      c5AfterRefresh.currentView.isDetail = true)) :=
  c5_lifecycle_amended c5Ask c5AfterRefresh ⟨.rune, 50⟩ (by decide)

/-! ## C6: the three Escape rules -/

/-- The Escape dispatch of `App.handleInput`, spelled out. -/
theorem handleInput_escape_eq (ask : String → AgentResult) (a : AppState) (kr : Nat) :
    handleInput ask a ⟨.escape, kr⟩ =
      if a.isDetailView then ({ a with currentView := a.previousView }, [])
      else if a.currentView = .copilot then switchToView a .dashboard
      else (a, []) := rfl

/-- **C6** — Escape from the Copilot view always lands on the Dashboard, for
every recorded previous view; Escape from a detail view returns to the
recorded previous view; Escape anywhere else leaves the current view
unchanged. -/
theorem c6_escape_rules (ask : String → AgentResult) (a : AppState) :
    (a.currentView = .copilot →
      (handleInput ask a ⟨.escape, 0⟩).1.currentView = .dashboard) ∧
    ((a.currentView = .workItemDetail ∨ a.currentView = .prDetail) →
      (handleInput ask a ⟨.escape, 0⟩).1.currentView = a.previousView) ∧
    (a.currentView ≠ .copilot → a.currentView ≠ .workItemDetail →
      a.currentView ≠ .prDetail →
      (handleInput ask a ⟨.escape, 0⟩).1.currentView = a.currentView) := by
  refine ⟨?_, ?_, ?_⟩
  · intro h
    have hd : ¬ (a.isDetailView = true) := by
      simp [AppState.isDetailView, ViewID.isDetail, h]
    rw [handleInput_escape_eq, if_neg hd, if_pos h]
    exact (switchToView_spec a .dashboard (by simp [h])).1
  · intro h
    have hd : a.isDetailView = true := by
      rcases h with h | h <;> simp [AppState.isDetailView, ViewID.isDetail, h]
    rw [handleInput_escape_eq, if_pos hd]
  · intro h1 h2 h3
    have hd : ¬ (a.isDetailView = true) := by
      simp [AppState.isDetailView, ViewID.isDetail, h2, h3]
    rw [handleInput_escape_eq, if_neg hd, if_neg h1]

/-- An inert agent stub for the C6 scenario. -/
def c6Ask : String → AgentResult := fun _ => {}

/-- The controller after navigating Dashboard → Boards (`2`) → Copilot
(`:`): the recorded previous view is Boards, not Dashboard. -/
def c6NavState : AppState :=
  (handleInput c6Ask (handleInput c6Ask initApp ⟨.rune, 50⟩).1 ⟨.rune, 58⟩).1

/-- Witness for C6: after the history Dashboard → Boards → Copilot, Escape
lands on the Dashboard even though the recorded previous view is Boards. -/
theorem c6_escape_rules_witness :
    (handleInput c6Ask c6NavState ⟨.escape, 0⟩).1.currentView = ViewID.dashboard ∧
    c6NavState.previousView = ViewID.boards :=
  ⟨(c6_escape_rules c6Ask c6NavState).1 (by decide), by decide⟩

/-! ## C7: the active view has first refusal on printable keys -/

/-- **C7** — Printable keys reach the global shortcuts only if the active
view declines them: a rune key consumed by the active view produces exactly
the view's own state change and no event (no refresh launch, no view
switch); in particular, with Copilot current, the letter `r` (114) is
inserted into the input buffer, nothing else in the state changes, and no
refresh is triggered. -/
theorem c7_copilot_first_refusal (ask : String → AgentResult) (a : AppState) :
    (∀ kr : Nat, (viewHandleKey ask a ⟨.rune, kr⟩).2 = true →
      handleInput ask a ⟨.rune, kr⟩ = ((viewHandleKey ask a ⟨.rune, kr⟩).1, [])) ∧
    (a.currentView = .copilot →
      (handleInput ask a ⟨.rune, 114⟩).1
          = { a with copilotInput := a.copilotInput ++ "r" } ∧
      (handleInput ask a ⟨.rune, 114⟩).2 = []) := by
  constructor
  · intro kr hh
    have hred : handleInput ask a ⟨.rune, kr⟩ =
        if (viewHandleKey ask a ⟨.rune, kr⟩).2 then ((viewHandleKey ask a ⟨.rune, kr⟩).1, [])
        else handleGlobalKeys (viewHandleKey ask a ⟨.rune, kr⟩).1 ⟨.rune, kr⟩ := rfl
    rw [hred, if_pos hh]
  · intro h
    have hr : String.mk [Char.ofNat 114] = "r" := by decide
    have hv : viewHandleKey ask a ⟨.rune, 114⟩
        = ({ a with copilotInput := a.copilotInput ++ "r" }, true) := by
      simp only [viewHandleKey, h]
      rw [copilotHandleKey]
      dsimp only
      rw [hr, h]
    have hred : handleInput ask a ⟨.rune, 114⟩ =
        if (viewHandleKey ask a ⟨.rune, 114⟩).2 then ((viewHandleKey ask a ⟨.rune, 114⟩).1, [])
        else handleGlobalKeys (viewHandleKey ask a ⟨.rune, 114⟩).1 ⟨.rune, 114⟩ := rfl
    rw [hred, hv]
    exact ⟨rfl, rfl⟩

/-- Witness for C7: with Copilot current, `r` lands in the input buffer and
the dispatch consumes it without any global effect. -/
theorem c7_copilot_first_refusal_witness :
    handleInput (fun _ => ({} : AgentResult)) { initApp with currentView := ViewID.copilot }
        ⟨.rune, 114⟩
      = ((viewHandleKey (fun _ => ({} : AgentResult))
            { initApp with currentView := ViewID.copilot } ⟨.rune, 114⟩).1, []) ∧
    (handleInput (fun _ => ({} : AgentResult)) { initApp with currentView := ViewID.copilot }
        ⟨.rune, 114⟩).1
      = { { initApp with currentView := ViewID.copilot } with
          copilotInput :=
            ({ initApp with currentView := ViewID.copilot } : AppState).copilotInput ++ "r" } :=
  ⟨(c7_copilot_first_refusal (fun _ => ({} : AgentResult))
      { initApp with currentView := ViewID.copilot }).1 114 (by decide),
   ((c7_copilot_first_refusal (fun _ => ({} : AgentResult))
      { initApp with currentView := ViewID.copilot }).2 (by decide)).1⟩

end Apo
